import Mathlib

/-!
Verification of the Black-Scholes pricer engine (repository Pricer-BS).

The engine lives in two near-identical modules, pricerB&S.py and pricerBS.py.
We embed the engine functions over the real numbers: the standard normal CDF
N (built on the Gauss error function, which the source obtains from math.erf),
the density phi, the intermediates d1 and d2, the price and the five Greeks.
The option type is a string, matching the source's comparison with 'call'.

A second embedding (namespace BS2) translates pricerBS.py, and a family of
spec_* definitions transcribes the specification's formula table, so that
refinement claims compare code-side and spec-side definitions.

Finally, Checked variants mirror Python's run-time arithmetic faults
(ZeroDivisionError from division by zero, ValueError from log of a
non-positive number or sqrt of a negative number) with an Except monad,
to settle the error-handling claims.
-/

open Real MeasureTheory

namespace Pricer

/-- The Gauss error function, the mathematical function computed by Python's
math.erf: erf x = (2/√π) · ∫ t in 0..x, exp (-t²). -/
noncomputable def erf (x : ℝ) : ℝ :=
  2 / Real.sqrt Real.pi * ∫ t in (0:ℝ)..x, Real.exp (-t ^ 2)

/-- Standard normal CDF, from pricerB&S.py: 0.5 * (1 + erf (x / sqrt 2)). -/
noncomputable def N (x : ℝ) : ℝ :=
  0.5 * (1 + erf (x / Real.sqrt 2))

/-- Standard normal PDF, from pricerB&S.py. -/
noncomputable def phi (x : ℝ) : ℝ :=
  1 / Real.sqrt (2 * Real.pi) * Real.exp (-0.5 * x ^ 2)

/-- d1 from pricerB&S.py. -/
noncomputable def d1 (S K T r sigma : ℝ) : ℝ :=
  (Real.log (S / K) + (r + 0.5 * sigma ^ 2) * T) / (sigma * Real.sqrt T)

/-- d2 from pricerB&S.py. -/
noncomputable def d2 (S K T r sigma : ℝ) : ℝ :=
  d1 S K T r sigma - sigma * Real.sqrt T

/-- European option price, from pricerB&S.py: the put branch is taken for
every option_type other than the exact string 'call'. -/
noncomputable def black_scholes_price (S K T r sigma : ℝ) (option_type : String) : ℝ :=
  let d_1 := d1 S K T r sigma
  let d_2 := d2 S K T r sigma
  if option_type = "call" then
    S * N d_1 - K * Real.exp (-r * T) * N d_2
  else
    K * Real.exp (-r * T) * N (-d_2) - S * N (-d_1)

/-- Delta from pricerB&S.py. -/
noncomputable def delta (S K T r sigma : ℝ) (option_type : String) : ℝ :=
  let d_1 := d1 S K T r sigma
  if option_type = "call" then N d_1 else N d_1 - 1

/-- Gamma from pricerB&S.py (takes no option type). -/
noncomputable def gamma (S K T r sigma : ℝ) : ℝ :=
  let d_1 := d1 S K T r sigma
  phi d_1 / (S * sigma * Real.sqrt T)

/-- Vega from pricerB&S.py (takes no option type). -/
noncomputable def vega (S K T r sigma : ℝ) : ℝ :=
  let d_1 := d1 S K T r sigma
  S * phi d_1 * Real.sqrt T

/-- Theta from pricerB&S.py. -/
noncomputable def theta (S K T r sigma : ℝ) (option_type : String) : ℝ :=
  let d_1 := d1 S K T r sigma
  let d_2 := d2 S K T r sigma
  let first_term := -(S * phi d_1 * sigma) / (2 * Real.sqrt T)
  if option_type = "call" then
    first_term - r * K * Real.exp (-r * T) * N d_2
  else
    first_term + r * K * Real.exp (-r * T) * N (-d_2)

/-- Rho from pricerB&S.py. -/
noncomputable def rho (S K T r sigma : ℝ) (option_type : String) : ℝ :=
  let d_2 := d2 S K T r sigma
  if option_type = "call" then
    K * T * Real.exp (-r * T) * N d_2
  else
    -K * T * Real.exp (-r * T) * N (-d_2)

/-- The list comprehension of pricerB&S.py, tab 2:
prices = [black_scholes_price(s, K, T, r, sigma, option_type) for s in S_range]. -/
noncomputable def prices (S_range : List ℝ) (K T r sigma : ℝ) (option_type : String) : List ℝ :=
  S_range.map fun s => black_scholes_price s K T r sigma option_type

end Pricer

/-! ### The second module, pricerBS.py (identical engine code) -/

namespace BS2

/-- Standard normal CDF, from pricerBS.py. -/
noncomputable def N (x : ℝ) : ℝ :=
  0.5 * (1 + Pricer.erf (x / Real.sqrt 2))

/-- Standard normal PDF, from pricerBS.py. -/
noncomputable def phi (x : ℝ) : ℝ :=
  1 / Real.sqrt (2 * Real.pi) * Real.exp (-0.5 * x ^ 2)

/-- d1 from pricerBS.py. -/
noncomputable def d1 (S K T r sigma : ℝ) : ℝ :=
  (Real.log (S / K) + (r + 0.5 * sigma ^ 2) * T) / (sigma * Real.sqrt T)

/-- d2 from pricerBS.py. -/
noncomputable def d2 (S K T r sigma : ℝ) : ℝ :=
  d1 S K T r sigma - sigma * Real.sqrt T

/-- European option price, from pricerBS.py. -/
noncomputable def black_scholes_price (S K T r sigma : ℝ) (option_type : String) : ℝ :=
  let d_1 := d1 S K T r sigma
  let d_2 := d2 S K T r sigma
  if option_type = "call" then
    S * N d_1 - K * Real.exp (-r * T) * N d_2
  else
    K * Real.exp (-r * T) * N (-d_2) - S * N (-d_1)

/-- Delta from pricerBS.py. -/
noncomputable def delta (S K T r sigma : ℝ) (option_type : String) : ℝ :=
  let d_1 := d1 S K T r sigma
  if option_type = "call" then N d_1 else N d_1 - 1

/-- Gamma from pricerBS.py. -/
noncomputable def gamma (S K T r sigma : ℝ) : ℝ :=
  let d_1 := d1 S K T r sigma
  phi d_1 / (S * sigma * Real.sqrt T)

/-- Vega from pricerBS.py. -/
noncomputable def vega (S K T r sigma : ℝ) : ℝ :=
  let d_1 := d1 S K T r sigma
  S * phi d_1 * Real.sqrt T

/-- Theta from pricerBS.py. -/
noncomputable def theta (S K T r sigma : ℝ) (option_type : String) : ℝ :=
  let d_1 := d1 S K T r sigma
  let d_2 := d2 S K T r sigma
  let first_term := -(S * phi d_1 * sigma) / (2 * Real.sqrt T)
  if option_type = "call" then
    first_term - r * K * Real.exp (-r * T) * N d_2
  else
    first_term + r * K * Real.exp (-r * T) * N (-d_2)

/-- Rho from pricerBS.py. -/
noncomputable def rho (S K T r sigma : ℝ) (option_type : String) : ℝ :=
  let d_2 := d2 S K T r sigma
  if option_type = "call" then
    K * T * Real.exp (-r * T) * N d_2
  else
    -K * T * Real.exp (-r * T) * N (-d_2)

end BS2

namespace Pricer

/-! ### Spec-side definitions, transcribed from the specification's words -/

/-- The spec's closed option-type enumeration {Call, Put}. -/
inductive OptType
  | call
  | put
  deriving DecidableEq

/-- Spec: Φ(x) = 0.5·(1 + erf(x/√2)). -/
noncomputable def spec_Phi (x : ℝ) : ℝ :=
  0.5 * (1 + erf (x / Real.sqrt 2))

/-- Spec: φ(x) = (1/√(2π))·exp(-0.5·x²). -/
noncomputable def spec_pdf (x : ℝ) : ℝ :=
  1 / Real.sqrt (2 * Real.pi) * Real.exp (-0.5 * x ^ 2)

/-- Spec: d1 = (ln(S/K) + (r + 0.5·σ²)·T) / (σ·√T). -/
noncomputable def spec_d1 (S K T r sigma : ℝ) : ℝ :=
  (Real.log (S / K) + (r + 0.5 * sigma ^ 2) * T) / (sigma * Real.sqrt T)

/-- Spec: d2 = d1 − σ·√T. -/
noncomputable def spec_d2 (S K T r sigma : ℝ) : ℝ :=
  spec_d1 S K T r sigma - sigma * Real.sqrt T

/-- Spec formula table, Price row. -/
noncomputable def spec_price (S K T r sigma : ℝ) : OptType → ℝ
  | .call => S * spec_Phi (spec_d1 S K T r sigma)
      - K * Real.exp (-r * T) * spec_Phi (spec_d2 S K T r sigma)
  | .put => K * Real.exp (-r * T) * spec_Phi (-spec_d2 S K T r sigma)
      - S * spec_Phi (-spec_d1 S K T r sigma)

/-- Spec formula table, Delta row. -/
noncomputable def spec_delta (S K T r sigma : ℝ) : OptType → ℝ
  | .call => spec_Phi (spec_d1 S K T r sigma)
  | .put => spec_Phi (spec_d1 S K T r sigma) - 1

/-- Spec formula table, Gamma row (same for call and put). -/
noncomputable def spec_gamma (S K T r sigma : ℝ) : ℝ :=
  spec_pdf (spec_d1 S K T r sigma) / (S * sigma * Real.sqrt T)

/-- Spec formula table, Vega row (same for call and put). -/
noncomputable def spec_vega (S K T r sigma : ℝ) : ℝ :=
  S * spec_pdf (spec_d1 S K T r sigma) * Real.sqrt T

/-- Spec formula table, Theta row. -/
noncomputable def spec_theta (S K T r sigma : ℝ) : OptType → ℝ
  | .call => -(S * spec_pdf (spec_d1 S K T r sigma) * sigma) / (2 * Real.sqrt T)
      - r * K * Real.exp (-r * T) * spec_Phi (spec_d2 S K T r sigma)
  | .put => -(S * spec_pdf (spec_d1 S K T r sigma) * sigma) / (2 * Real.sqrt T)
      + r * K * Real.exp (-r * T) * spec_Phi (-spec_d2 S K T r sigma)

/-- Spec formula table, Rho row. -/
noncomputable def spec_rho (S K T r sigma : ℝ) : OptType → ℝ
  | .call => K * T * Real.exp (-r * T) * spec_Phi (spec_d2 S K T r sigma)
  | .put => -(K * T * Real.exp (-r * T) * spec_Phi (-spec_d2 S K T r sigma))

/-! ### Checked evaluators mirroring Python's run-time arithmetic faults -/

/-- Errors a Python engine call can raise (zeroDivision for ZeroDivisionError,
valueError for a math-domain ValueError) together with the spec's error
taxonomy (domainError naming a field, invalidArgument), so that statements can
compare what the code raises with what the spec prescribes. -/
inductive PyError
  | zeroDivision
  | valueError
  | domainError (field : String)
  | invalidArgument
  deriving DecidableEq

/-- d1 as Python evaluates it, fault by fault: S / K raises ZeroDivisionError
when K = 0; math.log raises ValueError when its argument is ≤ 0; math.sqrt
raises ValueError when T < 0; the final division raises ZeroDivisionError when
σ·√T = 0. -/
noncomputable def d1Checked (S K T r sigma : ℝ) : Except PyError ℝ :=
  if K = 0 then .error .zeroDivision
  else if S / K ≤ 0 then .error .valueError
  else if T < 0 then .error .valueError
  else if sigma * Real.sqrt T = 0 then .error .zeroDivision
  else .ok ((Real.log (S / K) + (r + 0.5 * sigma ^ 2) * T) / (sigma * Real.sqrt T))

/-- d2 as Python evaluates it: it first calls d1, then subtracts σ·√T
(whose sqrt was already validated inside d1 since the same T is passed). -/
noncomputable def d2Checked (S K T r sigma : ℝ) : Except PyError ℝ :=
  match d1Checked S K T r sigma with
  | .error e => .error e
  | .ok d => .ok (d - sigma * Real.sqrt T)

/-- black_scholes_price as Python evaluates it. -/
noncomputable def black_scholes_priceChecked (S K T r sigma : ℝ) (option_type : String) :
    Except PyError ℝ :=
  match d1Checked S K T r sigma with
  | .error e => .error e
  | .ok d_1 =>
    match d2Checked S K T r sigma with
    | .error e => .error e
    | .ok d_2 =>
      if option_type = "call" then
        .ok (S * N d_1 - K * Real.exp (-r * T) * N d_2)
      else
        .ok (K * Real.exp (-r * T) * N (-d_2) - S * N (-d_1))

/-- delta as Python evaluates it. -/
noncomputable def deltaChecked (S K T r sigma : ℝ) (option_type : String) :
    Except PyError ℝ :=
  match d1Checked S K T r sigma with
  | .error e => .error e
  | .ok d_1 => .ok (if option_type = "call" then N d_1 else N d_1 - 1)

/-- gamma as Python evaluates it (one further division). -/
noncomputable def gammaChecked (S K T r sigma : ℝ) : Except PyError ℝ :=
  match d1Checked S K T r sigma with
  | .error e => .error e
  | .ok d_1 =>
    if S * sigma * Real.sqrt T = 0 then .error .zeroDivision
    else .ok (phi d_1 / (S * sigma * Real.sqrt T))

/-- vega as Python evaluates it. -/
noncomputable def vegaChecked (S K T r sigma : ℝ) : Except PyError ℝ :=
  match d1Checked S K T r sigma with
  | .error e => .error e
  | .ok d_1 => .ok (S * phi d_1 * Real.sqrt T)

/-- theta as Python evaluates it (one further division by 2·√T). -/
noncomputable def thetaChecked (S K T r sigma : ℝ) (option_type : String) :
    Except PyError ℝ :=
  match d1Checked S K T r sigma with
  | .error e => .error e
  | .ok d_1 =>
    match d2Checked S K T r sigma with
    | .error e => .error e
    | .ok d_2 =>
      if 2 * Real.sqrt T = 0 then .error .zeroDivision
      else
        if option_type = "call" then
          .ok (-(S * phi d_1 * sigma) / (2 * Real.sqrt T)
            - r * K * Real.exp (-r * T) * N d_2)
        else
          .ok (-(S * phi d_1 * sigma) / (2 * Real.sqrt T)
            + r * K * Real.exp (-r * T) * N (-d_2))

/-- rho as Python evaluates it. -/
noncomputable def rhoChecked (S K T r sigma : ℝ) (option_type : String) :
    Except PyError ℝ :=
  match d2Checked S K T r sigma with
  | .error e => .error e
  | .ok d_2 =>
    if option_type = "call" then
      .ok (K * T * Real.exp (-r * T) * N d_2)
    else
      .ok (-K * T * Real.exp (-r * T) * N (-d_2))

end Pricer

namespace Pricer

/-! ### Properties of the error function and the normal CDF -/

lemma continuous_gaussKernel : Continuous fun t : ℝ => Real.exp (-t ^ 2) := by
  continuity

lemma gaussInt_neg (x : ℝ) : (∫ t in (0:ℝ)..(-x), Real.exp (-t ^ 2))
    = -∫ t in (0:ℝ)..x, Real.exp (-t ^ 2) := by
  have h2 := intervalIntegral.integral_comp_neg (a := (0:ℝ)) (b := x)
    (f := fun t : ℝ => Real.exp (-t ^ 2))
  simp only [neg_sq, neg_zero] at h2
  have h3 : (∫ t in (-x)..(0:ℝ), Real.exp (-t ^ 2))
      = -∫ t in (0:ℝ)..(-x), Real.exp (-t ^ 2) :=
    intervalIntegral.integral_symm 0 (-x)
  rw [h3] at h2
  linarith

lemma erf_neg (x : ℝ) : erf (-x) = -erf x := by
  unfold erf
  rw [gaussInt_neg]
  ring

lemma gaussInt_nonneg {x : ℝ} (hx : 0 ≤ x) :
    0 ≤ ∫ t in (0:ℝ)..x, Real.exp (-t ^ 2) :=
  intervalIntegral.integral_nonneg hx fun t _ => (Real.exp_pos _).le

lemma gaussInt_le {x : ℝ} (hx : 0 ≤ x) :
    (∫ t in (0:ℝ)..x, Real.exp (-t ^ 2)) ≤ Real.sqrt Real.pi / 2 := by
  have hint : IntegrableOn (fun t : ℝ => Real.exp (-t ^ 2)) (Set.Ioi 0) := by
    have h := (integrable_exp_neg_mul_sq one_pos).integrableOn (s := Set.Ioi (0:ℝ))
    simpa using h
  have hmono : (∫ t in Set.Ioc (0:ℝ) x, Real.exp (-t ^ 2))
      ≤ ∫ t in Set.Ioi (0:ℝ), Real.exp (-t ^ 2) := by
    apply setIntegral_mono_set hint
    · exact Filter.Eventually.of_forall fun t => (Real.exp_pos _).le
    · exact Filter.Eventually.of_forall fun t ht => Set.Ioc_subset_Ioi_self ht
  have hval : (∫ t in Set.Ioi (0:ℝ), Real.exp (-t ^ 2)) = Real.sqrt Real.pi / 2 := by
    have h := integral_gaussian_Ioi 1
    simpa using h
  rw [intervalIntegral.integral_of_le hx]
  rw [hval] at hmono
  exact hmono

lemma erf_nonneg {x : ℝ} (hx : 0 ≤ x) : 0 ≤ erf x := by
  unfold erf
  have h1 : (0:ℝ) ≤ 2 / Real.sqrt Real.pi := by positivity
  exact mul_nonneg h1 (gaussInt_nonneg hx)

lemma erf_le_one (x : ℝ) : erf x ≤ 1 := by
  rcases le_or_lt 0 x with hx | hx
  · have h := gaussInt_le hx
    have hpi : 0 < Real.sqrt Real.pi := Real.sqrt_pos.2 Real.pi_pos
    have h2 : erf x ≤ 2 / Real.sqrt Real.pi * (Real.sqrt Real.pi / 2) := by
      unfold erf
      exact mul_le_mul_of_nonneg_left h (by positivity)
    have h3 : 2 / Real.sqrt Real.pi * (Real.sqrt Real.pi / 2) = 1 := by
      field_simp
    linarith
  · have h := erf_neg (-x)
    rw [neg_neg] at h
    have h2 : 0 ≤ erf (-x) := erf_nonneg (by linarith)
    linarith

lemma neg_one_le_erf (x : ℝ) : -1 ≤ erf x := by
  rcases le_or_lt 0 x with hx | hx
  · linarith [erf_nonneg hx]
  · have h := erf_neg (-x)
    rw [neg_neg] at h
    have h2 : erf (-x) ≤ 1 := erf_le_one (-x)
    linarith

lemma N_nonneg (x : ℝ) : 0 ≤ N x := by
  unfold N
  linarith [neg_one_le_erf (x / Real.sqrt 2)]

lemma N_le_one (x : ℝ) : N x ≤ 1 := by
  unfold N
  linarith [erf_le_one (x / Real.sqrt 2)]

lemma N_add_neg (x : ℝ) : N x + N (-x) = 1 := by
  unfold N
  rw [neg_div, erf_neg]
  ring

lemma phi_pos (x : ℝ) : 0 < phi x := by
  unfold phi
  positivity

/-! ### Branch-reduction lemmas for the engine's string dispatch -/

lemma price_call_eq (S K T r sigma : ℝ) :
    black_scholes_price S K T r sigma "call"
      = S * N (d1 S K T r sigma) - K * Real.exp (-r * T) * N (d2 S K T r sigma) := by
  simp [black_scholes_price]

lemma price_other_eq (S K T r sigma : ℝ) {ot : String} (h : ot ≠ "call") :
    black_scholes_price S K T r sigma ot
      = K * Real.exp (-r * T) * N (-d2 S K T r sigma) - S * N (-d1 S K T r sigma) := by
  simp [black_scholes_price, if_neg h]

lemma delta_call_eq (S K T r sigma : ℝ) :
    delta S K T r sigma "call" = N (d1 S K T r sigma) := by
  simp [delta]

lemma delta_other_eq (S K T r sigma : ℝ) {ot : String} (h : ot ≠ "call") :
    delta S K T r sigma ot = N (d1 S K T r sigma) - 1 := by
  simp [delta, if_neg h]

lemma put_call_parity (S K T r sigma : ℝ) :
    black_scholes_price S K T r sigma "call" - black_scholes_price S K T r sigma "put"
      = S - K * Real.exp (-r * T) := by
  rw [price_call_eq, price_other_eq S K T r sigma (by decide)]
  have h1 := N_add_neg (d1 S K T r sigma)
  have h2 := N_add_neg (d2 S K T r sigma)
  linear_combination S * h1 - K * Real.exp (-r * T) * h2

end Pricer

namespace Pricer

/-- Claim C7: the normal-distribution utilities satisfy their reference
definitions: N computes 0.5·(1 + erf(x/√2)) and phi computes
(1/√(2π))·exp(-0.5·x²); phi is total (defined and positive at every real). -/
theorem C7_normal_utilities : ∀ x : ℝ,
    N x = spec_Phi x ∧ phi x = spec_pdf x ∧ 0 < phi x :=
  fun x => ⟨rfl, rfl, phi_pos x⟩

/-- Claim C9: the two pricer modules implement the same engine: every engine
function of pricerBS.py agrees with its counterpart in pricerB&S.py on all
inputs. -/
theorem C9_modules_agree : ∀ (x S K T r sigma : ℝ) (option_type : String),
    BS2.N x = N x ∧ BS2.phi x = phi x ∧
    BS2.d1 S K T r sigma = d1 S K T r sigma ∧
    BS2.d2 S K T r sigma = d2 S K T r sigma ∧
    BS2.black_scholes_price S K T r sigma option_type
      = black_scholes_price S K T r sigma option_type ∧
    BS2.delta S K T r sigma option_type = delta S K T r sigma option_type ∧
    BS2.gamma S K T r sigma = gamma S K T r sigma ∧
    BS2.vega S K T r sigma = vega S K T r sigma ∧
    BS2.theta S K T r sigma option_type = theta S K T r sigma option_type ∧
    BS2.rho S K T r sigma option_type = rho S K T r sigma option_type :=
  fun _ _ _ _ _ _ _ => ⟨rfl, rfl, rfl, rfl, rfl, rfl, rfl, rfl, rfl, rfl⟩

/-- Claim C1: on every valid input each of the six engine operations returns
exactly the closed-form Black-Scholes expression of the spec's formula table,
with the spec's intermediates d1 and d2. -/
theorem C1_engine_matches_spec_formulas (S K T r sigma : ℝ)
    (hS : 0 < S) (hK : 0 < K) (hT : 0 < T) (hsigma : 0 < sigma) :
    d1 S K T r sigma = spec_d1 S K T r sigma ∧
    d2 S K T r sigma = spec_d2 S K T r sigma ∧
    black_scholes_price S K T r sigma "call" = spec_price S K T r sigma OptType.call ∧
    black_scholes_price S K T r sigma "put" = spec_price S K T r sigma OptType.put ∧
    delta S K T r sigma "call" = spec_delta S K T r sigma OptType.call ∧
    delta S K T r sigma "put" = spec_delta S K T r sigma OptType.put ∧
    gamma S K T r sigma = spec_gamma S K T r sigma ∧
    vega S K T r sigma = spec_vega S K T r sigma ∧
    theta S K T r sigma "call" = spec_theta S K T r sigma OptType.call ∧
    theta S K T r sigma "put" = spec_theta S K T r sigma OptType.put ∧
    rho S K T r sigma "call" = spec_rho S K T r sigma OptType.call ∧
    rho S K T r sigma "put" = spec_rho S K T r sigma OptType.put := by
  have hput : ("put" : String) ≠ "call" := by decide
  refine ⟨rfl, rfl, ?_, ?_, ?_, ?_, rfl, rfl, ?_, ?_, ?_, ?_⟩ <;>
    simp [black_scholes_price, delta, theta, rho, if_neg hput,
      spec_price, spec_delta, spec_theta, spec_rho, spec_Phi, spec_pdf,
      spec_d1, spec_d2, N, phi, d1, d2]

/-- Witness for C1 at S = 100, K = 100, T = 1, r = 0.05, sigma = 0.2. -/
theorem C1_engine_matches_spec_formulas_witness :
    d1 100 100 1 0.05 0.2 = spec_d1 100 100 1 0.05 0.2 ∧
    d2 100 100 1 0.05 0.2 = spec_d2 100 100 1 0.05 0.2 ∧
    black_scholes_price 100 100 1 0.05 0.2 "call" = spec_price 100 100 1 0.05 0.2 OptType.call ∧
    black_scholes_price 100 100 1 0.05 0.2 "put" = spec_price 100 100 1 0.05 0.2 OptType.put ∧
    delta 100 100 1 0.05 0.2 "call" = spec_delta 100 100 1 0.05 0.2 OptType.call ∧
    delta 100 100 1 0.05 0.2 "put" = spec_delta 100 100 1 0.05 0.2 OptType.put ∧
    gamma 100 100 1 0.05 0.2 = spec_gamma 100 100 1 0.05 0.2 ∧
    vega 100 100 1 0.05 0.2 = spec_vega 100 100 1 0.05 0.2 ∧
    theta 100 100 1 0.05 0.2 "call" = spec_theta 100 100 1 0.05 0.2 OptType.call ∧
    theta 100 100 1 0.05 0.2 "put" = spec_theta 100 100 1 0.05 0.2 OptType.put ∧
    rho 100 100 1 0.05 0.2 "call" = spec_rho 100 100 1 0.05 0.2 OptType.call ∧
    rho 100 100 1 0.05 0.2 "put" = spec_rho 100 100 1 0.05 0.2 OptType.put :=
  C1_engine_matches_spec_formulas 100 100 1 0.05 0.2
    (by norm_num) (by norm_num) (by norm_num) (by norm_num)

/-- Claim C2: put-call parity: on every valid input the call price minus the
put price equals S − K·exp(−r·T), within 1e-6 absolute tolerance (the real
model satisfies it exactly, see put_call_parity). -/
theorem C2_put_call_parity (S K T r sigma : ℝ)
    (hS : 0 < S) (hK : 0 < K) (hT : 0 < T) (hsigma : 0 < sigma) :
    |black_scholes_price S K T r sigma "call" - black_scholes_price S K T r sigma "put"
      - (S - K * Real.exp (-r * T))| ≤ 1e-6 := by
  rw [put_call_parity]
  simp only [sub_self, abs_zero]
  norm_num

/-- Witness for C2 at S = 100, K = 100, T = 1, r = 0.05, sigma = 0.2. -/
theorem C2_put_call_parity_witness :
    |black_scholes_price 100 100 1 0.05 0.2 "call"
      - black_scholes_price 100 100 1 0.05 0.2 "put"
      - (100 - 100 * Real.exp (-0.05 * 1))| ≤ 1e-6 :=
  C2_put_call_parity 100 100 1 0.05 0.2
    (by norm_num) (by norm_num) (by norm_num) (by norm_num)

/-- Claim C4: on every valid input, Delta of a call lies in [0, 1] and Delta
of a put lies in [-1, 0]. -/
theorem C4_delta_bounds (S K T r sigma : ℝ)
    (hS : 0 < S) (hK : 0 < K) (hT : 0 < T) (hsigma : 0 < sigma) :
    delta S K T r sigma "call" ∈ Set.Icc (0:ℝ) 1 ∧
    delta S K T r sigma "put" ∈ Set.Icc (-1:ℝ) 0 := by
  rw [delta_call_eq, delta_other_eq S K T r sigma (by decide)]
  constructor
  · exact Set.mem_Icc.2 ⟨N_nonneg _, N_le_one _⟩
  · exact Set.mem_Icc.2
      ⟨by linarith [N_nonneg (d1 S K T r sigma)], by linarith [N_le_one (d1 S K T r sigma)]⟩

/-- Witness for C4 at S = 100, K = 100, T = 1, r = 0.05, sigma = 0.2. -/
theorem C4_delta_bounds_witness :
    delta 100 100 1 0.05 0.2 "call" ∈ Set.Icc (0:ℝ) 1 ∧
    delta 100 100 1 0.05 0.2 "put" ∈ Set.Icc (-1:ℝ) 0 :=
  C4_delta_bounds 100 100 1 0.05 0.2
    (by norm_num) (by norm_num) (by norm_num) (by norm_num)

/-- Claim C5: on every valid input, Gamma ≥ 0 and Vega ≥ 0. Both engine
functions take no option-type argument, so independence from the option type
holds by construction of the source code. -/
theorem C5_gamma_vega_nonneg (S K T r sigma : ℝ)
    (hS : 0 < S) (hK : 0 < K) (hT : 0 < T) (hsigma : 0 < sigma) :
    0 ≤ gamma S K T r sigma ∧ 0 ≤ vega S K T r sigma := by
  constructor
  · unfold gamma
    exact div_nonneg (phi_pos _).le
      (mul_nonneg (mul_nonneg hS.le hsigma.le) (Real.sqrt_nonneg _))
  · unfold vega
    exact mul_nonneg (mul_nonneg hS.le (phi_pos _).le) (Real.sqrt_nonneg _)

/-- Witness for C5 at S = 100, K = 100, T = 1, r = 0.05, sigma = 0.2. -/
theorem C5_gamma_vega_nonneg_witness :
    0 ≤ gamma 100 100 1 0.05 0.2 ∧ 0 ≤ vega 100 100 1 0.05 0.2 :=
  C5_gamma_vega_nonneg 100 100 1 0.05 0.2
    (by norm_num) (by norm_num) (by norm_num) (by norm_num)

/-- Claim C10: for every option_type other than the exact string 'call'
(including 'Call', 'banana', or the empty string), the four type-dispatching
operations return their put-branch value; the source performs no validation
of the option type. -/
theorem C10_non_call_takes_put_branch (S K T r sigma : ℝ)
    (hS : 0 < S) (hK : 0 < K) (hT : 0 < T) (hsigma : 0 < sigma)
    (option_type : String) (h : option_type ≠ "call") :
    black_scholes_price S K T r sigma option_type
      = black_scholes_price S K T r sigma "put" ∧
    delta S K T r sigma option_type = delta S K T r sigma "put" ∧
    theta S K T r sigma option_type = theta S K T r sigma "put" ∧
    rho S K T r sigma option_type = rho S K T r sigma "put" := by
  have hput : ("put" : String) ≠ "call" := by decide
  refine ⟨?_, ?_, ?_, ?_⟩ <;>
    simp [black_scholes_price, delta, theta, rho, if_neg h, if_neg hput]

/-- Witness for C10 at S = 100, K = 100, T = 1, r = 0.05, sigma = 0.2 and the
unrecognized option type 'banana'. -/
theorem C10_non_call_takes_put_branch_witness :
    black_scholes_price 100 100 1 0.05 0.2 "banana"
      = black_scholes_price 100 100 1 0.05 0.2 "put" ∧
    delta 100 100 1 0.05 0.2 "banana" = delta 100 100 1 0.05 0.2 "put" ∧
    theta 100 100 1 0.05 0.2 "banana" = theta 100 100 1 0.05 0.2 "put" ∧
    rho 100 100 1 0.05 0.2 "banana" = rho 100 100 1 0.05 0.2 "put" :=
  C10_non_call_takes_put_branch 100 100 1 0.05 0.2
    (by norm_num) (by norm_num) (by norm_num) (by norm_num) "banana" (by decide)

end Pricer

namespace Pricer

/-! ### Behaviour of the checked evaluators -/

lemma d1Checked_ok (S K T r sigma : ℝ)
    (hS : 0 < S) (hK : 0 < K) (hT : 0 < T) (hs : 0 < sigma) :
    d1Checked S K T r sigma = .ok (d1 S K T r sigma) := by
  unfold d1Checked d1
  rw [if_neg hK.ne', if_neg (not_le.2 (div_pos hS hK)), if_neg (not_lt.2 hT.le),
    if_neg (mul_pos hs (Real.sqrt_pos.2 hT)).ne']

lemma d2Checked_ok (S K T r sigma : ℝ)
    (hS : 0 < S) (hK : 0 < K) (hT : 0 < T) (hs : 0 < sigma) :
    d2Checked S K T r sigma = .ok (d2 S K T r sigma) := by
  unfold d2Checked d2
  rw [d1Checked_ok S K T r sigma hS hK hT hs]

lemma priceChecked_ok (S K T r sigma : ℝ)
    (hS : 0 < S) (hK : 0 < K) (hT : 0 < T) (hs : 0 < sigma) (ot : String) :
    black_scholes_priceChecked S K T r sigma ot
      = .ok (black_scholes_price S K T r sigma ot) := by
  unfold black_scholes_priceChecked
  rw [d1Checked_ok S K T r sigma hS hK hT hs, d2Checked_ok S K T r sigma hS hK hT hs]
  by_cases h : ot = "call" <;> simp [black_scholes_price, h]

lemma priceChecked_error {S K T r sigma : ℝ} {e : PyError}
    (h : d1Checked S K T r sigma = .error e) (ot : String) :
    black_scholes_priceChecked S K T r sigma ot = .error e := by
  unfold black_scholes_priceChecked
  rw [h]

lemma d2Checked_error {S K T r sigma : ℝ} {e : PyError}
    (h : d1Checked S K T r sigma = .error e) :
    d2Checked S K T r sigma = .error e := by
  unfold d2Checked
  rw [h]

lemma deltaChecked_error {S K T r sigma : ℝ} {e : PyError}
    (h : d1Checked S K T r sigma = .error e) (ot : String) :
    deltaChecked S K T r sigma ot = .error e := by
  unfold deltaChecked
  rw [h]

lemma gammaChecked_error {S K T r sigma : ℝ} {e : PyError}
    (h : d1Checked S K T r sigma = .error e) :
    gammaChecked S K T r sigma = .error e := by
  unfold gammaChecked
  rw [h]

lemma vegaChecked_error {S K T r sigma : ℝ} {e : PyError}
    (h : d1Checked S K T r sigma = .error e) :
    vegaChecked S K T r sigma = .error e := by
  unfold vegaChecked
  rw [h]

lemma thetaChecked_error {S K T r sigma : ℝ} {e : PyError}
    (h : d1Checked S K T r sigma = .error e) (ot : String) :
    thetaChecked S K T r sigma ot = .error e := by
  unfold thetaChecked
  rw [h]

lemma rhoChecked_error {S K T r sigma : ℝ} {e : PyError}
    (h : d1Checked S K T r sigma = .error e) (ot : String) :
    rhoChecked S K T r sigma ot = .error e := by
  unfold rhoChecked
  rw [d2Checked_error h]

lemma d1Checked_error_cases (S K T r sigma : ℝ)
    (h : (T = 0 ∧ 0 < S ∧ 0 < K ∧ 0 < sigma) ∨ (sigma = 0 ∧ 0 < S ∧ 0 < K ∧ 0 < T)
       ∨ (S = 0 ∧ 0 < K ∧ 0 < T ∧ 0 < sigma) ∨ (K < 0 ∧ 0 < S ∧ 0 < T ∧ 0 < sigma)) :
    d1Checked S K T r sigma = .error .zeroDivision
      ∨ d1Checked S K T r sigma = .error .valueError := by
  unfold d1Checked
  rcases h with ⟨hT, hS, hK, hs⟩ | ⟨hs, hS, hK, hT⟩ | ⟨hS, hK, hT, hs⟩ | ⟨hK, hS, hT, hs⟩
  · subst hT
    left
    rw [if_neg hK.ne', if_neg (not_le.2 (div_pos hS hK)), if_neg (not_lt.2 le_rfl),
      if_pos (by rw [Real.sqrt_zero, mul_zero])]
  · subst hs
    left
    rw [if_neg hK.ne', if_neg (not_le.2 (div_pos hS hK)), if_neg (not_lt.2 hT.le),
      if_pos (zero_mul _)]
  · subst hS
    right
    rw [if_neg hK.ne', if_pos (le_of_eq (zero_div K))]
  · right
    rw [if_neg hK.ne, if_pos (div_neg_of_pos_of_neg hS hK).le]

end Pricer

namespace Pricer

/-- Claim C3 counterexample: calling price with T = 0 (S = 100, K = 100,
r = 0.05, sigma = 0.2) raises ZeroDivisionError — the low-level arithmetic
fault from the division by σ·√T = 0 inside d1 — not a DomainError naming the
offending field; the source performs no input validation and defines no
DomainError. -/
theorem C3_counterexample_T_zero_zeroDivision :
    black_scholes_priceChecked 100 100 0 0.05 0.2 "call"
      = .error .zeroDivision := by
  have h : d1Checked 100 100 0 0.05 0.2 = .error .zeroDivision := by
    unfold d1Checked
    rw [if_neg (by norm_num), if_neg (by norm_num), if_neg (by norm_num),
      if_pos (by rw [Real.sqrt_zero, mul_zero])]
  exact priceChecked_error h "call"

/-- Claim C3 amended: for each offending input of the claim (T = 0, σ = 0,
S = 0, or K < 0, the other parameters positive), price and every Greek raise
a low-level arithmetic fault — ZeroDivisionError or a math-domain
ValueError — and never a DomainError: the source performs no validation. -/
theorem C3_amended_low_level_faults (S K T r sigma : ℝ) (ot : String)
    (h : (T = 0 ∧ 0 < S ∧ 0 < K ∧ 0 < sigma) ∨ (sigma = 0 ∧ 0 < S ∧ 0 < K ∧ 0 < T)
       ∨ (S = 0 ∧ 0 < K ∧ 0 < T ∧ 0 < sigma) ∨ (K < 0 ∧ 0 < S ∧ 0 < T ∧ 0 < sigma)) :
    ∃ e, (e = PyError.zeroDivision ∨ e = PyError.valueError) ∧
      black_scholes_priceChecked S K T r sigma ot = .error e ∧
      deltaChecked S K T r sigma ot = .error e ∧
      gammaChecked S K T r sigma = .error e ∧
      vegaChecked S K T r sigma = .error e ∧
      thetaChecked S K T r sigma ot = .error e ∧
      rhoChecked S K T r sigma ot = .error e := by
  rcases d1Checked_error_cases S K T r sigma h with h1 | h1
  · exact ⟨.zeroDivision, Or.inl rfl, priceChecked_error h1 ot, deltaChecked_error h1 ot,
      gammaChecked_error h1, vegaChecked_error h1, thetaChecked_error h1 ot,
      rhoChecked_error h1 ot⟩
  · exact ⟨.valueError, Or.inr rfl, priceChecked_error h1 ot, deltaChecked_error h1 ot,
      gammaChecked_error h1, vegaChecked_error h1, thetaChecked_error h1 ot,
      rhoChecked_error h1 ot⟩

/-- Witness for the amended C3, at S = 100, K = 100, T = 0, r = 0.05,
sigma = 0.2 and option type 'call'. -/
theorem C3_amended_low_level_faults_witness :
    ∃ e, (e = PyError.zeroDivision ∨ e = PyError.valueError) ∧
      black_scholes_priceChecked 100 100 0 0.05 0.2 "call" = .error e ∧
      deltaChecked 100 100 0 0.05 0.2 "call" = .error e ∧
      gammaChecked 100 100 0 0.05 0.2 = .error e ∧
      vegaChecked 100 100 0 0.05 0.2 = .error e ∧
      thetaChecked 100 100 0 0.05 0.2 "call" = .error e ∧
      rhoChecked 100 100 0 0.05 0.2 "call" = .error e :=
  C3_amended_low_level_faults 100 100 0 0.05 0.2 "call"
    (Or.inl ⟨rfl, by norm_num, by norm_num, by norm_num⟩)

/-- Claim C6 (the code's actual behaviour at the failing input): with option
type 'Call' — outside the source's {call, put} spelling — price, delta, theta
and rho silently return their put-branch numeric value, and the checked
evaluator returns a successful numeric result, so no InvalidArgument (nor any
other error) is raised. -/
theorem C6_unknown_type_returns_put_value :
    black_scholes_price 100 100 1 0.05 0.2 "Call"
      = black_scholes_price 100 100 1 0.05 0.2 "put" ∧
    delta 100 100 1 0.05 0.2 "Call" = delta 100 100 1 0.05 0.2 "put" ∧
    theta 100 100 1 0.05 0.2 "Call" = theta 100 100 1 0.05 0.2 "put" ∧
    rho 100 100 1 0.05 0.2 "Call" = rho 100 100 1 0.05 0.2 "put" ∧
    black_scholes_priceChecked 100 100 1 0.05 0.2 "Call"
      = .ok (black_scholes_price 100 100 1 0.05 0.2 "Call") := by
  have hCall : ("Call" : String) ≠ "call" := by decide
  have hput : ("put" : String) ≠ "call" := by decide
  refine ⟨?_, ?_, ?_, ?_, ?_⟩
  · rw [price_other_eq 100 100 1 0.05 0.2 hCall, price_other_eq 100 100 1 0.05 0.2 hput]
  · rw [delta_other_eq 100 100 1 0.05 0.2 hCall, delta_other_eq 100 100 1 0.05 0.2 hput]
  · simp [theta, if_neg hCall, if_neg hput]
  · simp [rho, if_neg hCall, if_neg hput]
  · exact priceChecked_ok 100 100 1 0.05 0.2
      (by norm_num) (by norm_num) (by norm_num) (by norm_num) "Call"

end Pricer

namespace Pricer

/-! ### Differentiability of the call price in the spot, for the sweep claim -/

lemma hasDerivAt_erf (x : ℝ) :
    HasDerivAt erf (2 / Real.sqrt Real.pi * Real.exp (-x ^ 2)) x := by
  have h := (continuous_gaussKernel.integral_hasStrictDerivAt 0 x).hasDerivAt
  exact HasDerivAt.const_mul (2 / Real.sqrt Real.pi) h

lemma hasDerivAt_N (x : ℝ) : HasDerivAt N (phi x) x := by
  have h1 : HasDerivAt (fun y : ℝ => y / Real.sqrt 2) (1 / Real.sqrt 2) x :=
    (hasDerivAt_id x).div_const _
  have h2 := (hasDerivAt_erf (x / Real.sqrt 2)).comp x h1
  have h3 := HasDerivAt.const_mul (0.5 : ℝ) (HasDerivAt.const_add 1 h2)
  have harg : ((x / Real.sqrt 2) ^ 2) = 0.5 * x ^ 2 := by
    rw [div_pow, Real.sq_sqrt (by norm_num : (0:ℝ) ≤ 2)]
    ring
  have hval : (0.5 : ℝ) * (2 / Real.sqrt Real.pi
        * Real.exp (-((x / Real.sqrt 2) ^ 2)) * (1 / Real.sqrt 2)) = phi x := by
    rw [harg]
    unfold phi
    rw [Real.sqrt_mul (by norm_num : (0:ℝ) ≤ 2)]
    have hpi : (0:ℝ) < Real.sqrt Real.pi := Real.sqrt_pos.2 Real.pi_pos
    have h2' : (0:ℝ) < Real.sqrt 2 := by positivity
    field_simp
    ring
  rw [← hval]
  exact h3

lemma hasDerivAt_d1_S (S K T r sigma : ℝ) (hS : 0 < S) (hK : 0 < K)
    (hc : sigma * Real.sqrt T ≠ 0) :
    HasDerivAt (fun s => d1 s K T r sigma) (1 / S / (sigma * Real.sqrt T)) S := by
  have h1 : HasDerivAt (fun s : ℝ => s / K) (1 / K) S := (hasDerivAt_id S).div_const _
  have h2 : HasDerivAt (fun s : ℝ => Real.log (s / K)) (1 / K / (S / K)) S :=
    h1.log (div_pos hS hK).ne'
  have h3 := (h2.add_const ((r + 0.5 * sigma ^ 2) * T)).div_const (sigma * Real.sqrt T)
  have heq : 1 / K / (S / K) = 1 / S := by
    field_simp
  rw [heq] at h3
  exact h3

lemma S_phi_d1_eq (S K T r sigma : ℝ)
    (hS : 0 < S) (hK : 0 < K) (hT : 0 < T) (hs : 0 < sigma) :
    S * phi (d1 S K T r sigma) = K * Real.exp (-r * T) * phi (d2 S K T r sigma) := by
  have hc : 0 < sigma * Real.sqrt T := mul_pos hs (Real.sqrt_pos.2 hT)
  have hc2 : (sigma * Real.sqrt T) ^ 2 = sigma ^ 2 * T := by
    rw [mul_pow, Real.sq_sqrt hT.le]
  have hd1c : d1 S K T r sigma * (sigma * Real.sqrt T)
      = Real.log S - Real.log K + (r + 0.5 * sigma ^ 2) * T := by
    unfold d1
    rw [div_mul_cancel₀ _ hc.ne', Real.log_div hS.ne' hK.ne']
  have hac : d1 S K T r sigma * (sigma * Real.sqrt T) - 0.5 * (sigma * Real.sqrt T) ^ 2
      = Real.log S - Real.log K + r * T := by
    linear_combination hd1c - 0.5 * hc2
  have hexp : Real.exp (-0.5 * (d1 S K T r sigma - sigma * Real.sqrt T) ^ 2)
      = Real.exp (-0.5 * d1 S K T r sigma ^ 2) * (S / K * Real.exp (r * T)) := by
    rw [← Real.exp_log (div_pos hS hK), ← Real.exp_add, ← Real.exp_add]
    congr 1
    rw [Real.log_div hS.ne' hK.ne']
    linear_combination hac
  have hB : Real.sqrt (2 * Real.pi) ≠ 0 := by positivity
  unfold phi d2
  rw [hexp, neg_mul, Real.exp_neg]
  have hE : Real.exp (r * T) ≠ 0 := Real.exp_ne_zero _
  have hE2 : Real.exp (-(r * T)) * Real.exp (r * T) = 1 := by
    rw [← Real.exp_add]
    simp
  field_simp
  ring_nf
  linear_combination (-(S * Real.sqrt 2 * Real.sqrt Real.pi
      * Real.exp (d1 S K T r sigma ^ 2 * (1 / 2)) * K)) * hE2

end Pricer

namespace Pricer

lemma hasDerivAt_price_call_S (S K T r sigma : ℝ)
    (hS : 0 < S) (hK : 0 < K) (hT : 0 < T) (hs : 0 < sigma) :
    HasDerivAt (fun s => black_scholes_price s K T r sigma "call")
      (N (d1 S K T r sigma)) S := by
  have hc : 0 < sigma * Real.sqrt T := mul_pos hs (Real.sqrt_pos.2 hT)
  have hd1 := hasDerivAt_d1_S S K T r sigma hS hK hc.ne'
  have hd2 : HasDerivAt (fun s => d2 s K T r sigma) (1 / S / (sigma * Real.sqrt T)) S :=
    hd1.sub_const (sigma * Real.sqrt T)
  have hN1 := (hasDerivAt_N (d1 S K T r sigma)).comp S hd1
  have hN2 := (hasDerivAt_N (d2 S K T r sigma)).comp S hd2
  have hmul := (hasDerivAt_id S).mul hN1
  have hconst := HasDerivAt.const_mul (K * Real.exp (-r * T)) hN2
  have hsub := hmul.sub hconst
  have hfun : (fun s => black_scholes_price s K T r sigma "call")
      = fun s => s * N (d1 s K T r sigma)
        - K * Real.exp (-r * T) * N (d2 s K T r sigma) := by
    funext s
    exact price_call_eq s K T r sigma
  rw [hfun]
  convert hsub using 1
  have hid := S_phi_d1_eq S K T r sigma hS hK hT hs
  rw [one_mul, div_div]
  have hSc : S * (sigma * Real.sqrt T) ≠ 0 := (mul_pos hS hc).ne'
  field_simp
  ring_nf
  ring_nf at hid
  linear_combination -hid

lemma price_call_monotoneOn (K T r sigma : ℝ)
    (hK : 0 < K) (hT : 0 < T) (hsigma : 0 < sigma) :
    MonotoneOn (fun s => black_scholes_price s K T r sigma "call") (Set.Ioi (0:ℝ)) := by
  refine @monotoneOn_of_hasDerivWithinAt_nonneg (Set.Ioi 0) (convex_Ioi 0)
    (fun s => black_scholes_price s K T r sigma "call")
    (fun s => N (d1 s K T r sigma)) ?_ ?_ ?_
  · intro s hs
    exact (hasDerivAt_price_call_S s K T r sigma hs hK hT hsigma).continuousAt.continuousWithinAt
  · intro s hs
    rw [interior_Ioi] at hs
    exact (hasDerivAt_price_call_S s K T r sigma hs hK hT hsigma).hasDerivWithinAt
  · intro s _
    exact N_nonneg _

lemma map_chain'_of_monotoneOn {f : ℝ → ℝ} (hf : MonotoneOn f (Set.Ioi 0)) :
    ∀ xs : List ℝ, (∀ x ∈ xs, (0:ℝ) < x) → List.Chain' (· ≤ ·) xs →
      List.Chain' (· ≤ ·) (xs.map f)
  | [], _, _ => List.chain'_nil
  | [a], _, _ => by simp
  | a :: b :: t, hpos, hchain => by
      rw [List.map_cons, List.map_cons, List.chain'_cons]
      rw [List.chain'_cons] at hchain
      refine ⟨hf (Set.mem_Ioi.2 (hpos a (by simp))) (Set.mem_Ioi.2 (hpos b (by simp)))
        hchain.1, ?_⟩
      have h := map_chain'_of_monotoneOn hf (b :: t)
        (fun x hx => hpos x (List.mem_cons_of_mem a hx)) hchain.2
      rw [List.map_cons] at h
      exact h

end Pricer

namespace Pricer

/-- Claim C8: the sweep of call Price over a list of spot values (the source's
list comprehension) has the same length and positional order as the input
list — the i-th output is the price at the i-th spot with the other
parameters fixed — and for a non-decreasing list of positive spots the
output sequence is monotonically non-decreasing. -/
theorem C8_sweep_order_and_monotone (xs : List ℝ) (K T r sigma : ℝ)
    (hK : 0 < K) (hT : 0 < T) (hsigma : 0 < sigma)
    (hpos : ∀ x ∈ xs, (0:ℝ) < x) (hsorted : List.Chain' (· ≤ ·) xs) :
    (prices xs K T r sigma "call").length = xs.length ∧
    (∀ i : ℕ, (prices xs K T r sigma "call").get? i
      = (xs.get? i).map fun s => black_scholes_price s K T r sigma "call") ∧
    List.Chain' (· ≤ ·) (prices xs K T r sigma "call") := by
  refine ⟨List.length_map _ _, fun i => List.get?_map _ _ _, ?_⟩
  exact map_chain'_of_monotoneOn (price_call_monotoneOn K T r sigma hK hT hsigma)
    xs hpos hsorted

/-- Witness for C8 at the spec's sweep [80, 90, 100, 110, 120] with K = 100,
T = 1, r = 0.05, sigma = 0.2. -/
theorem C8_sweep_order_and_monotone_witness :
    (prices [80, 90, 100, 110, 120] 100 1 0.05 0.2 "call").length
      = ([80, 90, 100, 110, 120] : List ℝ).length ∧
    (∀ i : ℕ, (prices [80, 90, 100, 110, 120] 100 1 0.05 0.2 "call").get? i
      = (([80, 90, 100, 110, 120] : List ℝ).get? i).map
          fun s => black_scholes_price s 100 1 0.05 0.2 "call") ∧
    List.Chain' (· ≤ ·) (prices [80, 90, 100, 110, 120] 100 1 0.05 0.2 "call") :=
  C8_sweep_order_and_monotone [80, 90, 100, 110, 120] 100 1 0.05 0.2
    (by norm_num) (by norm_num) (by norm_num)
    (by
      intro x hx
      simp only [List.mem_cons, List.not_mem_nil, or_false] at hx
      rcases hx with rfl | rfl | rfl | rfl | rfl <;> norm_num)
    (by norm_num [List.chain'_cons])

end Pricer
